import Mathlib

/-!
Shallow embedding of `lisa/sut_orchestrator/baremetal/cluster/idrac.py`.

The iDRAC cluster controller drives a Redfish BMC over HTTP.  We model the
BMC as an oracle (`Bmc`): a record of the responses the BMC would give to
each protocol call, plus the sequence of power states it reports and whether
a PATCH of the serial-capture attribute takes effect.  Every operation of the
controller is embedded as a function returning the list of protocol calls it
issued (`List Call`), the BMC state left behind (`BmcState`) and either a
normal return or the exception raised (`Except Err _`).
-/

namespace LisaIdrac

/-- A protocol call issued to the BMC, as observable on the wire.  `taskPoll`
is a poll of an asynchronous task monitor inside `_wait_for_completion`. -/
inductive Call where
  | login
  | logout
  | getPowerState
  | reset (operation : String)
  | insertMedia (isoHttpUrl : String)
  | ejectMedia
  | importSystemConfiguration (target : String) (importBuffer : String)
  | getAttributes
  | patchAttributes
  | exportScreenShot (fileType : String)
  | serialDataExport
  | writeFile (data : List Nat)
  | taskPoll
deriving DecidableEq

/-- The exceptions the embedded code can raise: `assert` failures,
`NotImplementedError` for hibernate stop, and the `LisaException`s raised for
a bad terminal status, a poll timeout, or a failed console enable. -/
inductive Err where
  | assertionError
  | notImplementedError
  | protocolError (status : Nat)
  | timeoutError
  | consoleEnableFailed
deriving DecidableEq

/-- An HTTP response as used by `_wait_for_completion`: its status code and
its `is_processing` flag (the response represents an in-progress task). -/
structure Response where
  status : Nat
  isProcessing : Bool
deriving DecidableEq

/-- One observation of a task monitor: whether the task is still processing
and the server-suggested `retry_after` interval. -/
structure TaskInfo where
  isProcessing : Bool
  retryAfter : Option Nat
deriving DecidableEq

/-- Mutable state of the physical machine visible through the BMC: how many
power-state reads have happened (indexing the oracle's reported sequence) and
the current value of the `SerialCapture.1.Enable` attribute. -/
structure BmcState where
  powerIdx : Nat
  serialCapture : String
deriving DecidableEq

/-- The BMC oracle: responses and monitor behaviour for each endpoint the
controller talks to. -/
structure Bmc where
  powerStates : Nat → String
  pollBound : Nat
  ejectResponse : Response
  ejectMonitor : Nat → TaskInfo
  importResponse : Response
  importMonitor : Nat → TaskInfo
  insertResponse : Response
  insertMonitor : Nat → TaskInfo
  resetResponse : String → Response
  resetMonitor : String → Nat → TaskInfo
  screenshotResponse : Response
  screenshotMonitor : Nat → TaskInfo
  screenshotFile : String
  serialExportStatus : Nat
  serialLogText : String
  patchTakesEffect : Bool

/-- The terminal statuses accepted by `_wait_for_completion` and
`_eject_virtual_media`: `[200, 202, 204]` in the source. -/
def successStatuses : List Nat := [200, 202, 204]

/-- Sleep interval between polls: `time.sleep(retry_time if retry_time else 5)`
(a `retry_after` of `None` or `0` is falsy in Python, giving the 5s default). -/
def sleepInterval (retryAfter : Option Nat) : Nat :=
  match retryAfter with
  | some n => if n = 0 then 5 else n
  | none => 5

/-- The polling loop of `_wait_for_completion`:
`while task.is_processing and timer.elapsed(False) < timeout: sleep; task = response.monitor(...)`.
`monitor i` is the result of the `(i+1)`-th monitor call; `elapsed` is the
wall-clock time slept so far.  Returns the number of monitor calls made and
the final elapsed time. -/
def pollLoop (monitor : Nat → TaskInfo) (i elapsed timeout : Nat) : Nat × Nat :=
  if h : (monitor i).isProcessing = true ∧ elapsed < timeout then
    let r := pollLoop monitor (i + 1) (elapsed + sleepInterval (monitor i).retryAfter) timeout
    (r.1 + 1, r.2)
  else
    (1, elapsed)
termination_by timeout - elapsed
decreasing_by
  simp_wf
  have h1 : 1 ≤ sleepInterval (monitor i).retryAfter := by
    cases (monitor i).retryAfter with
    | none =>
      simp only [sleepInterval]
      omega
    | some n =>
      simp only [sleepInterval]
      split <;> omega
  obtain ⟨-, h2⟩ := h
  omega

/-- `Idrac._wait_for_completion(response, timeout=600)`: if the response is
in progress, poll its monitor until it stops processing or the elapsed time
exceeds the timeout; afterwards, raise unless `response.status` is one of
`successStatuses`.  Returns the monitor polls issued, the elapsed time and
the outcome. -/
def waitForCompletion (response : Response) (monitor : Nat → TaskInfo) (timeout : Nat) :
    List Call × Nat × Except Err Unit :=
  let pe := if response.isProcessing = true then pollLoop monitor 0 0 timeout else (0, 0)
  (List.replicate pe.1 Call.taskPoll, pe.2,
    if response.status ∈ successStatuses then Except.ok ()
    else Except.error (Err.protocolError response.status))

/-- Sequencing of two operations: the second runs only when the first
returned normally; an exception propagates, keeping the calls issued so far.
This mirrors ordinary Python control flow with exceptions. -/
def andThen {α β : Type} (x : List Call × BmcState × Except Err α)
    (f : α → BmcState → List Call × BmcState × Except Err β) :
    List Call × BmcState × Except Err β :=
  match x with
  | (t, s, Except.ok a) =>
    let y := f a s
    (t ++ y.1, y.2.1, y.2.2)
  | (t, s, Except.error e) => (t, s, Except.error e)

/-- `Idrac.login()`: opens the Redfish session. -/
def loginOp (s : BmcState) : List Call × BmcState × Except Err Unit :=
  ([Call.login], s, Except.ok ())

/-- `Idrac.logout()`: closes the Redfish session. -/
def logoutOp (s : BmcState) : List Call × BmcState × Except Err Unit :=
  ([Call.logout], s, Except.ok ())

/-- `Idrac.get_power_state()`: a GET of the system resource returning its
`PowerState` field; the oracle reports `powerStates k` for the `(k+1)`-th read. -/
def getPowerStateOp (bmc : Bmc) (s : BmcState) : List Call × BmcState × Except Err String :=
  ([Call.getPowerState], { s with powerIdx := s.powerIdx + 1 },
    Except.ok (bmc.powerStates s.powerIdx))

/-- `Idrac.reset(operation)`: posts the `ComputerSystem.Reset` action with a
`ResetType` body and passes the response through `_wait_for_completion`. -/
def resetOp (bmc : Bmc) (operation : String) (s : BmcState) :
    List Call × BmcState × Except Err Unit :=
  let w := waitForCompletion (bmc.resetResponse operation) (bmc.resetMonitor operation) 600
  (Call.reset operation :: w.1, s, w.2.2)

/-- `Idrac._insert_virtual_media(iso_http_url)`: posts `VirtualMedia.InsertMedia`
with the image URL, then `_wait_for_completion`. -/
def insertVirtualMedia (bmc : Bmc) (isoHttpUrl : String) (s : BmcState) :
    List Call × BmcState × Except Err Unit :=
  let w := waitForCompletion bmc.insertResponse bmc.insertMonitor 600
  (Call.insertMedia isoHttpUrl :: w.1, s, w.2.2)

/-- `Idrac._eject_virtual_media()`: posts `VirtualMedia.EjectMedia`; the
return is ignored on failure ("it is ok if no media was attached") and
`_wait_for_completion` runs only when the immediate status is a success one. -/
def ejectVirtualMedia (bmc : Bmc) (s : BmcState) : List Call × BmcState × Except Err Unit :=
  if bmc.ejectResponse.status ∈ successStatuses then
    let w := waitForCompletion bmc.ejectResponse bmc.ejectMonitor 600
    (Call.ejectMedia :: w.1, s, w.2.2)
  else
    ([Call.ejectMedia], s, Except.ok ())

/-- One `<Attribute Name="...">text</Attribute>` node of the configuration
document built by `_change_boot_order_once`. -/
structure XAttribute where
  name : String
  text : String
deriving DecidableEq

/-- The `<Component FQDD="...">` node holding the attribute list. -/
structure XComponent where
  fqdd : String
  attributes : List XAttribute
deriving DecidableEq

/-- The `<SystemConfiguration>` root of the import document. -/
structure XSystemConfiguration where
  component : XComponent
deriving DecidableEq

/-- Serialization of one attribute node, as `ETree.tostring(..., method="html")`
renders it. -/
def serializeAttribute (a : XAttribute) : String :=
  "<Attribute Name=" ++ "\"" ++ a.name ++ "\"" ++ ">" ++ a.text ++ "</Attribute>"

/-- Serialization of a list of attribute nodes. -/
def serializeAttributes : List XAttribute → String
  | [] => ""
  | a :: rest => serializeAttribute a ++ serializeAttributes rest

/-- Serialization of the component node. -/
def serializeComponent (c : XComponent) : String :=
  "<Component FQDD=" ++ "\"" ++ c.fqdd ++ "\"" ++ ">" ++
    serializeAttributes c.attributes ++ "</Component>"

/-- Serialization of the whole system-configuration document. -/
def serializeSystemConfiguration (sc : XSystemConfiguration) : String :=
  "<SystemConfiguration>" ++ serializeComponent sc.component ++ "</SystemConfiguration>"

/-- The document `_change_boot_order_once` builds: a `SystemConfiguration`
holding one `iDRAC.Embedded.1` component with the `VirtualMedia.1#BootOnce`
attribute set to `Enabled` and `ServerBoot.1#FirstBootDevice` set to the
requested boot source. -/
def bootConfigDocument (bootFrom : String) : XSystemConfiguration :=
  { component :=
    { fqdd := "iDRAC.Embedded.1"
      attributes :=
        [ { name := "VirtualMedia.1#BootOnce", text := "Enabled" }
        , { name := "ServerBoot.1#FirstBootDevice", text := bootFrom } ] } }

/-- `Idrac._change_boot_order_once(boot_from)`: builds the configuration
document, serializes it, posts it to `EID_674_Manager.ImportSystemConfiguration`
with `ShareParameters.Target = "ALL"`, then `_wait_for_completion`. -/
def changeBootOrderOnce (bmc : Bmc) (bootFrom : String) (s : BmcState) :
    List Call × BmcState × Except Err Unit :=
  let importBuffer := serializeSystemConfiguration (bootConfigDocument bootFrom)
  let w := waitForCompletion bmc.importResponse bmc.importMonitor 600
  (Call.importSystemConfiguration "ALL" importBuffer :: w.1, s, w.2.2)

/-- Effect of the PATCH in `_enable_serial_console` on the BMC: the oracle
decides whether the attribute write takes effect. -/
def applyPatch (bmc : Bmc) (s : BmcState) : BmcState :=
  if bmc.patchTakesEffect = true then { s with serialCapture := "Enabled" } else s

/-- `Idrac._enable_serial_console()`: GET the manager attributes; if
`SerialCapture.1.Enable` is `"Disabled"`, PATCH it to `"Enabled"` (the PATCH
response is not checked); GET again and raise unless the re-read value is
`"Enabled"`. -/
def enableSerialConsole (bmc : Bmc) (s : BmcState) : List Call × BmcState × Except Err Unit :=
  let firstRead := s.serialCapture
  let patchTrace := if firstRead = "Disabled" then [Call.patchAttributes] else []
  let s1 := if firstRead = "Disabled" then applyPatch bmc s else s
  let secondRead := s1.serialCapture
  (Call.getAttributes :: (patchTrace ++ [Call.getAttributes]), s1,
    if secondRead = "Enabled" then Except.ok () else Except.error Err.consoleEnableFailed)

/-- Modelled from the spec: `check_till_timeout` from `lisa.util` is not under
`src/`; per the spec it must keep evaluating the condition with bounded
polling and "fail fatally if the machine never reports" the wanted state.
Here it is specialised to its two call sites, which poll
`get_power_state() == target`; `bound` is the abstract number of attempts the
timeout allows. -/
def waitForPowerState (bmc : Bmc) (target : String) :
    Nat → BmcState → List Call × BmcState × Except Err Unit
  | 0, s => ([], s, Except.error Err.timeoutError)
  | bound + 1, s =>
    let p := bmc.powerStates s.powerIdx
    let s1 : BmcState := { s with powerIdx := s.powerIdx + 1 }
    if p = target then ([Call.getPowerState], s1, Except.ok ())
    else
      let r := waitForPowerState bmc target bound s1
      (Call.getPowerState :: r.1, r.2.1, r.2.2)

/-- The check `assert self.client.iso_http_url, "iso_http_url is required..."`
in `Idrac.deploy`: a missing or empty URL is falsy and raises
`AssertionError`. -/
def assertIsoUrl (isoHttpUrl : Option String) (s : BmcState) :
    List Call × BmcState × Except Err String :=
  match isoHttpUrl with
  | some u => if u = "" then ([], s, Except.error Err.assertionError) else ([], s, Except.ok u)
  | none => ([], s, Except.error Err.assertionError)

/-- `Idrac.deploy(environment)`: login, eject stale media, assert the ISO URL
is configured, import the one-time boot override, force the machine off unless
already off, insert the ISO, wait for the machine to report Off, enable the
serial console, power on, wait for On, logout. -/
def deploy (bmc : Bmc) (isoHttpUrl : Option String) (s : BmcState) :
    List Call × BmcState × Except Err Unit :=
  andThen (loginOp s) fun _ s =>
  andThen (ejectVirtualMedia bmc s) fun _ s =>
  andThen (assertIsoUrl isoHttpUrl s) fun url s =>
  andThen (changeBootOrderOnce bmc "VCD-DVD" s) fun _ s =>
  andThen (getPowerStateOp bmc s) fun powerState s =>
  andThen (if powerState = "Off" then ([], s, Except.ok ())
           else resetOp bmc "ForceOff" s) fun _ s =>
  andThen (insertVirtualMedia bmc url s) fun _ s =>
  andThen (waitForPowerState bmc "Off" bmc.pollBound s) fun _ s =>
  andThen (enableSerialConsole bmc s) fun _ s =>
  andThen (resetOp bmc "On" s) fun _ s =>
  andThen (waitForPowerState bmc "On" bmc.pollBound s) fun _ s =>
  logoutOp s

/-- The stop modes of `features.StartStop`. -/
inductive StopState where
  | shutdown
  | hibernate
deriving DecidableEq

/-- `IdracStartStop._stop(wait, state)`: hibernate is rejected up front with
`NotImplementedError`; otherwise login, and if the machine is already Off
return at once, else issue `ForceOff` and logout. -/
def stop (bmc : Bmc) (state : StopState) (s : BmcState) :
    List Call × BmcState × Except Err Unit :=
  if state = StopState.hibernate then
    ([], s, Except.error Err.notImplementedError)
  else
    andThen (loginOp s) fun _ s =>
    andThen (getPowerStateOp bmc s) fun powerState s =>
    if powerState = "Off" then ([], s, Except.ok ())
    else
      andThen (resetOp bmc "ForceOff" s) fun _ s =>
      logoutOp s

/-- `IdracStartStop._start(wait)`: login, and if the machine is already On
return at once, else issue `On` and logout. -/
def start (bmc : Bmc) (s : BmcState) : List Call × BmcState × Except Err Unit :=
  andThen (loginOp s) fun _ s =>
  andThen (getPowerStateOp bmc s) fun powerState s =>
  if powerState = "On" then ([], s, Except.ok ())
  else
    andThen (resetOp bmc "On" s) fun _ s =>
    logoutOp s

/-- `IdracStartStop._restart(wait)`: login, `ForceRestart`, logout. -/
def restart (bmc : Bmc) (s : BmcState) : List Call × BmcState × Except Err Unit :=
  andThen (loginOp s) fun _ s =>
  andThen (resetOp bmc "ForceRestart" s) fun _ s =>
  logoutOp s

/-- The base64 alphabet used by `base64.b64encode`/`b64decode`. -/
def base64Chars : List Char :=
  "ABCDEFGHIJKLMNOPQRSTUVWXYZabcdefghijklmnopqrstuvwxyz0123456789+/".toList

/-- The character encoding a 6-bit group. -/
def encodeB64Char (n : Nat) : Char := base64Chars.getD n '?'

/-- The 6-bit group a base64 character stands for. -/
def decodeB64Char (c : Char) : Nat := base64Chars.indexOf c

/-- `base64.b64encode` on a byte string: each 3-byte group becomes four
alphabet characters; a trailing 1- or 2-byte group is padded with `=`. -/
def b64encode : List Nat → List Char
  | [] => []
  | [a] =>
    [encodeB64Char (a / 4), encodeB64Char (a % 4 * 16), '=', '=']
  | [a, b] =>
    [encodeB64Char (a / 4), encodeB64Char (a % 4 * 16 + b / 16),
     encodeB64Char (b % 16 * 4), '=']
  | a :: b :: c :: rest =>
    encodeB64Char (a / 4) :: encodeB64Char (a % 4 * 16 + b / 16) ::
    encodeB64Char (b % 16 * 4 + c / 64) :: encodeB64Char (c % 64) :: b64encode rest

/-- `base64.b64decode`: each 4-character group yields three bytes, or fewer
when `=` padding ends the data. -/
def b64decode : List Char → List Nat
  | c1 :: c2 :: c3 :: c4 :: rest =>
    let s1 := decodeB64Char c1
    let s2 := decodeB64Char c2
    if c3 = '=' then [s1 * 4 + s2 / 16]
    else
      let s3 := decodeB64Char c3
      if c4 = '=' then [s1 * 4 + s2 / 16, s2 % 16 * 16 + s3 / 4]
      else (s1 * 4 + s2 / 16) :: (s2 % 16 * 16 + s3 / 4) ::
        ((s3 % 4 * 64 + decodeB64Char c4) :: b64decode rest)
  | _ => []

/-- `Idrac.get_server_screen_shot(file_type="ServerScreenShot")`: posts the
`DellLCService.ExportServerScreenShot` action, `_wait_for_completion`, and
returns the `ServerScreenShotFile` field (base64 text). -/
def getServerScreenShot (bmc : Bmc) (s : BmcState) : List Call × BmcState × Except Err String :=
  let w := waitForCompletion bmc.screenshotResponse bmc.screenshotMonitor 600
  (Call.exportScreenShot "ServerScreenShot" :: w.1, s,
    match w.2.2 with
    | Except.ok _ => Except.ok bmc.screenshotFile
    | Except.error e => Except.error e)

/-- Lines 77-82 of `IdracSerialConsole._get_console_log`: fetch the
screenshot, base64-decode it and write the decoded bytes to
`serial_console.png` under the saved path. -/
def saveScreenshot (bmc : Bmc) (s : BmcState) : List Call × BmcState × Except Err Unit :=
  andThen (getServerScreenShot bmc s) fun shot s =>
    ([Call.writeFile (b64decode shot.toList)], s, Except.ok ())

/-- `Idrac.get_serial_console_log()`: posts `DellSerialInterface.SerialDataExport`
and spins on `int(response.status) == 200` (`check_till_timeout`); the
response object is fixed, so the spin succeeds at once on status 200 and
otherwise times out fatally. -/
def getSerialConsoleLog (bmc : Bmc) (s : BmcState) : List Call × BmcState × Except Err String :=
  ([Call.serialDataExport], s,
    if bmc.serialExportStatus = 200 then Except.ok bmc.serialLogText
    else Except.error Err.timeoutError)

/-- `IdracSerialConsole._get_console_log(saved_path)`: login; when a saved
path is given, persist the decoded screenshot; fetch the serial log; logout;
return the log text. -/
def getConsoleLog (bmc : Bmc) (savedPath : Bool) (s : BmcState) :
    List Call × BmcState × Except Err String :=
  andThen (loginOp s) fun _ s =>
  andThen (if savedPath then saveScreenshot bmc s else ([], s, Except.ok ())) fun _ s =>
  andThen (getSerialConsoleLog bmc s) fun consoleLog s =>
  andThen (logoutOp s) fun _ s =>
  ([], s, Except.ok consoleLog)

/-- The part of the iDRAC runbook schema `Idrac.__init__` inspects: the list
of configured clients. -/
structure IdracSchema where
  client : List (Option String)
deriving DecidableEq

/-- A constructed `Idrac` instance: its single client (we keep the client's
`iso_http_url` field, the only one the modelled operations use). -/
structure IdracInstance where
  client : Option String
deriving DecidableEq

/-- `Idrac.__init__(runbook)`: `assert_that(len(runbook.client)).is_equal_to(1)`
then `self.client = runbook.client[0]`. -/
def idracInit (runbook : IdracSchema) : Except Err IdracInstance :=
  if runbook.client.length = 1 then
    match runbook.client.head? with
    | some c => Except.ok { client := c }
    | none => Except.error Err.assertionError
  else Except.error Err.assertionError

/-- Calls that are not internal task-monitor polls. -/
def isWorkflowCall (c : Call) : Bool :=
  match c with
  | Call.taskPoll => false
  | _ => true

/-- A trace restricted to the calls visible at workflow granularity. -/
def workflowCalls (t : List Call) : List Call := t.filter isWorkflowCall

/-- The deploy-workflow steps claim C1 enumerates (it names neither the
session calls nor the monitor polls). -/
def isDeployStepCall (c : Call) : Bool :=
  match c with
  | Call.login => false
  | Call.logout => false
  | Call.taskPoll => false
  | _ => true

/-- A trace restricted to the calls claim C1 enumerates. -/
def deployStepCalls (t : List Call) : List Call := t.filter isDeployStepCall

/-- Matcher tail: nothing but power-state polls up to the end of the trace. -/
def pollsOnOnly : List Call → Bool
  | [] => true
  | Call.getPowerState :: rest => pollsOnOnly rest
  | _ => false

/-- Matcher: an `On` reset followed by polling until On. -/
def afterConsoleClaimed : List Call → Bool
  | Call.reset "On" :: Call.getPowerState :: rest => pollsOnOnly rest
  | _ => false

/-- Matcher: the console-enable reads (with the optional PATCH between them),
then the power-on tail. -/
def consoleClaimed : List Call → Bool
  | Call.getAttributes :: Call.patchAttributes :: Call.getAttributes :: rest =>
    afterConsoleClaimed rest
  | Call.getAttributes :: Call.getAttributes :: rest => afterConsoleClaimed rest
  | _ => false

/-- Matcher: the rest of the polling-until-Off segment, ended by the media
insertion and the console-enable segment. -/
def pollsOffClaimed : List Call → Bool
  | Call.getPowerState :: rest => pollsOffClaimed rest
  | Call.insertMedia _ :: rest => consoleClaimed rest
  | _ => false

/-- Matcher: at least one polling read of the power state, then the media
insertion — the order claim C1 states after the ForceOff step. -/
def claimedAfterPowerOff : List Call → Bool
  | Call.getPowerState :: rest => pollsOffClaimed rest
  | _ => false

/-- Matcher: the power-state check, the optional ForceOff, then the claimed
wait-for-Off/insert/console/power-on sequence. -/
def claimedAfterImport : List Call → Bool
  | Call.getPowerState :: Call.reset "ForceOff" :: rest => claimedAfterPowerOff rest
  | Call.getPowerState :: rest => claimedAfterPowerOff rest
  | _ => false

/-- The call order claim C1 asserts for the deploy workflow, as a matcher on
the deploy-step calls: eject, boot-override import, the power check, an
optional ForceOff, polling until Off, insert media, enable console, On,
polling until On. -/
def claimedDeployOrder : List Call → Bool
  | Call.ejectMedia :: Call.importSystemConfiguration _ _ :: rest => claimedAfterImport rest
  | _ => false

/-- A BMC oracle on which every action is accepted immediately (status 204,
not in progress), the machine is On until it is forced off, reports Off on
the poll after the ForceOff, and is back On after the power-on; the serial
console is already enabled. -/
def bmcDeploy : Bmc :=
  { powerStates := fun i => if i = 1 then "Off" else "On"
    pollBound := 3
    ejectResponse := { status := 204, isProcessing := false }
    ejectMonitor := fun _ => { isProcessing := false, retryAfter := none }
    importResponse := { status := 204, isProcessing := false }
    importMonitor := fun _ => { isProcessing := false, retryAfter := none }
    insertResponse := { status := 204, isProcessing := false }
    insertMonitor := fun _ => { isProcessing := false, retryAfter := none }
    resetResponse := fun _ => { status := 204, isProcessing := false }
    resetMonitor := fun _ _ => { isProcessing := false, retryAfter := none }
    screenshotResponse := { status := 200, isProcessing := false }
    screenshotMonitor := fun _ => { isProcessing := false, retryAfter := none }
    screenshotFile := ""
    serialExportStatus := 200
    serialLogText := ""
    patchTakesEffect := true }

/-- A BMC oracle whose eject action answers 404 (no media attached) and
which always reports the machine Off. -/
def bmcEjectRejected : Bmc :=
  { bmcDeploy with
    ejectResponse := { status := 404, isProcessing := false }
    powerStates := fun _ => "Off" }

/-- A BMC oracle that always reports the machine On. -/
def bmcAlwaysOn : Bmc :=
  { bmcDeploy with powerStates := fun _ => "On" }

/-- A task monitor that never leaves the in-progress state. -/
def busyMonitor : Nat → TaskInfo :=
  fun _ => { isProcessing := true, retryAfter := some 5 }

/-- A BMC oracle whose screenshot export returns the base64 encoding of the
bytes `[76, 73, 83, 65, 255, 0]`. -/
def bmcScreenshot : Bmc :=
  { bmcDeploy with screenshotFile := String.mk (b64encode [76, 73, 83, 65, 255, 0]) }

/-! Helper lemmas about the task poller. -/

theorem sleepInterval_pos (o : Option Nat) : 1 ≤ sleepInterval o := by
  cases o with
  | none =>
    simp only [sleepInterval]
    omega
  | some n =>
    simp only [sleepInterval]
    split <;> omega

theorem pollLoop_polls_pos (m : Nat → TaskInfo) (i e t : Nat) : 1 ≤ (pollLoop m i e t).1 := by
  unfold pollLoop
  split <;> simp

theorem pollLoop_elapsed_ge (m : Nat → TaskInfo) (hm : ∀ i, (m i).isProcessing = true) :
    ∀ n i e t, t - e ≤ n → t ≤ (pollLoop m i e t).2 := by
  intro n
  induction n with
  | zero =>
    intro i e t hle
    unfold pollLoop
    split
    · next hcond => omega
    · simp
      omega
  | succ n ih =>
    intro i e t hle
    unfold pollLoop
    split
    · next hcond =>
      simp only
      have hs := sleepInterval_pos (m i).retryAfter
      exact ih (i + 1) (e + sleepInterval (m i).retryAfter) t (by omega)
    · next hcond =>
      simp only
      have h1 := hm i
      have h2 : ¬ e < t := fun hlt => hcond ⟨h1, hlt⟩
      omega

theorem waitForCompletion_result (r : Response) (m : Nat → TaskInfo) (t : Nat) :
    (waitForCompletion r m t).2.2 =
      if r.status ∈ successStatuses then Except.ok ()
      else Except.error (Err.protocolError r.status) := rfl

theorem waitForCompletion_ok (r : Response) (m : Nat → TaskInfo) (t : Nat)
    (h : r.status ∈ successStatuses) : (waitForCompletion r m t).2.2 = Except.ok () := by
  rw [waitForCompletion_result, if_pos h]

theorem waitForCompletion_trace (r : Response) (m : Nat → TaskInfo) (t : Nat) :
    (waitForCompletion r m t).1 =
      List.replicate (if r.isProcessing = true then pollLoop m 0 0 t else (0, 0)).1
        Call.taskPoll := rfl

theorem waitForCompletion_trace_replicate (r : Response) (m : Nat → TaskInfo) (t : Nat) :
    ∃ p, (waitForCompletion r m t).1 = List.replicate p Call.taskPoll :=
  ⟨_, waitForCompletion_trace r m t⟩

theorem waitForCompletion_trace_nil_iff (r : Response) (m : Nat → TaskInfo) (t : Nat) :
    (waitForCompletion r m t).1 = [] ↔ r.isProcessing = false := by
  rw [waitForCompletion_trace]
  cases hp : r.isProcessing with
  | false => simp
  | true =>
    rw [if_pos rfl]
    have h1 := pollLoop_polls_pos m 0 0 t
    cases hq : (pollLoop m 0 0 t).1 with
    | zero => omega
    | succ k => simp [List.replicate_succ]

theorem waitForCompletion_elapsed_ge (r : Response) (m : Nat → TaskInfo) (t : Nat)
    (hr : r.isProcessing = true) (hm : ∀ i, (m i).isProcessing = true) :
    t ≤ (waitForCompletion r m t).2.1 := by
  show t ≤ (if r.isProcessing = true then pollLoop m 0 0 t else (0, 0)).2
  rw [if_pos hr]
  exact pollLoop_elapsed_ge m hm (t - 0) 0 0 t (le_refl _)

/-! Shape lemmas for the individual Redfish operations. -/

theorem eject_spec (bmc : Bmc) (s : BmcState) :
    ∃ p, ejectVirtualMedia bmc s =
      (Call.ejectMedia :: List.replicate p Call.taskPoll, s, Except.ok ()) := by
  unfold ejectVirtualMedia
  split
  · next h =>
    obtain ⟨p, hp⟩ := waitForCompletion_trace_replicate bmc.ejectResponse bmc.ejectMonitor 600
    refine ⟨p, ?_⟩
    simp only [hp, waitForCompletion_ok bmc.ejectResponse bmc.ejectMonitor 600 h]
  · exact ⟨0, rfl⟩

theorem reset_spec (bmc : Bmc) (operation : String) (s : BmcState) :
    ∃ p, resetOp bmc operation s =
      (Call.reset operation :: List.replicate p Call.taskPoll, s,
        (waitForCompletion (bmc.resetResponse operation) (bmc.resetMonitor operation) 600).2.2) := by
  obtain ⟨p, hp⟩ :=
    waitForCompletion_trace_replicate (bmc.resetResponse operation) (bmc.resetMonitor operation) 600
  refine ⟨p, ?_⟩
  simp only [resetOp, hp]

theorem insert_spec (bmc : Bmc) (url : String) (s : BmcState) :
    ∃ p, insertVirtualMedia bmc url s =
      (Call.insertMedia url :: List.replicate p Call.taskPoll, s,
        (waitForCompletion bmc.insertResponse bmc.insertMonitor 600).2.2) := by
  obtain ⟨p, hp⟩ := waitForCompletion_trace_replicate bmc.insertResponse bmc.insertMonitor 600
  refine ⟨p, ?_⟩
  simp only [insertVirtualMedia, hp]

theorem import_spec (bmc : Bmc) (bootFrom : String) (s : BmcState) :
    ∃ p, changeBootOrderOnce bmc bootFrom s =
      (Call.importSystemConfiguration "ALL"
          (serializeSystemConfiguration (bootConfigDocument bootFrom)) ::
        List.replicate p Call.taskPoll, s,
        (waitForCompletion bmc.importResponse bmc.importMonitor 600).2.2) := by
  obtain ⟨p, hp⟩ := waitForCompletion_trace_replicate bmc.importResponse bmc.importMonitor 600
  refine ⟨p, ?_⟩
  simp only [changeBootOrderOnce, hp]

theorem waitForPowerState_ok_spec (bmc : Bmc) (target : String) :
    ∀ bound s, (waitForPowerState bmc target bound s).2.2 = Except.ok () →
      ∃ k s1, waitForPowerState bmc target bound s =
        (List.replicate (k + 1) Call.getPowerState, s1, Except.ok ()) := by
  intro bound
  induction bound with
  | zero =>
    intro s h
    simp [waitForPowerState] at h
  | succ bound ih =>
    intro s h
    rw [waitForPowerState] at h ⊢
    simp only at h ⊢
    split at h
    · next hoff =>
      rw [if_pos hoff]
      exact ⟨0, _, rfl⟩
    · next hoff =>
      rw [if_neg hoff]
      obtain ⟨k, s1, hk⟩ := ih _ h
      rw [hk]
      exact ⟨k + 1, s1, by simp [List.replicate_succ]⟩

/-! The claim theorems. -/

/-- C10: constructing the iDRAC controller fails with an assertion error
unless the configuration lists exactly one client; on success the instance's
client is that single configured client. -/
theorem idrac_c10_single_client (runbook : IdracSchema) :
    idracInit runbook =
      (match runbook.client with
       | [c] => Except.ok { client := c }
       | _ => Except.error Err.assertionError) := by
  rcases hrb : runbook.client with _ | ⟨c, _ | ⟨d, rest⟩⟩ <;>
    simp [idracInit, hrb]

/-- C5: a call routed through `_wait_for_completion` (in particular every
`reset(op)`) returns without raising iff the observed response status is one
of `{200, 202, 204}`; any other status raises a fatal error carrying that
status code. -/
theorem idrac_c5_terminal_status (r : Response) (m : Nat → TaskInfo) (t : Nat)
    (bmc : Bmc) (operation : String) (s : BmcState) :
    ((waitForCompletion r m t).2.2 =
      if r.status ∈ successStatuses then Except.ok ()
      else Except.error (Err.protocolError r.status)) ∧
    ((resetOp bmc operation s).2.2 =
      if (bmc.resetResponse operation).status ∈ successStatuses then Except.ok ()
      else Except.error (Err.protocolError (bmc.resetResponse operation).status)) :=
  ⟨waitForCompletion_result r m t,
    waitForCompletion_result (bmc.resetResponse operation) (bmc.resetMonitor operation) 600⟩

/-- C6: eject never raises; the response goes through the task poller exactly
when its immediate status is one of `{200, 202, 204}` (otherwise the trace is
the bare eject post), and the poller issues monitor polls exactly when the
response is in progress. -/
theorem idrac_c6_eject_best_effort (bmc : Bmc) (s : BmcState) :
    (ejectVirtualMedia bmc s =
      (Call.ejectMedia ::
        (if bmc.ejectResponse.status ∈ successStatuses
         then (waitForCompletion bmc.ejectResponse bmc.ejectMonitor 600).1 else []),
       s, Except.ok ())) ∧
    ((waitForCompletion bmc.ejectResponse bmc.ejectMonitor 600).1 = [] ↔
      bmc.ejectResponse.isProcessing = false) := by
  constructor
  · by_cases h : bmc.ejectResponse.status ∈ successStatuses
    · simp only [ejectVirtualMedia, if_pos h,
        waitForCompletion_ok bmc.ejectResponse bmc.ejectMonitor 600 h]
    · simp only [ejectVirtualMedia, if_neg h]
  · exact waitForCompletion_trace_nil_iff bmc.ejectResponse bmc.ejectMonitor 600

/-- C4 counterexample: on a response that is in progress with immediate
status 202 and a monitor that never leaves the in-progress state, the claim
says `_wait_for_completion` raises a dedicated timeout error; in fact, once
the elapsed time reaches the 600s bound the call returns successfully. -/
theorem idrac_c4_counterexample :
    600 ≤ (waitForCompletion { status := 202, isProcessing := true } busyMonitor 600).2.1 ∧
    (waitForCompletion { status := 202, isProcessing := true } busyMonitor 600).2.2 =
      Except.ok () := by
  constructor
  · exact waitForCompletion_elapsed_ge _ busyMonitor 600 rfl (fun i => rfl)
  · exact waitForCompletion_ok _ busyMonitor 600 (by decide)

/-- C4 amended: with a monitor that never leaves the in-progress state, the
poller does not block indefinitely — it stops polling once the elapsed time
passes the configured bound — but it raises no dedicated timeout error:
the call then returns successfully iff `response.status` is one of
`{200, 202, 204}`, and otherwise raises the generic status error. -/
theorem idrac_c4_amended (r : Response) (m : Nat → TaskInfo) (t : Nat)
    (hr : r.isProcessing = true) (hm : ∀ i, (m i).isProcessing = true) :
    t ≤ (waitForCompletion r m t).2.1 ∧
    (waitForCompletion r m t).2.2 =
      (if r.status ∈ successStatuses then Except.ok ()
       else Except.error (Err.protocolError r.status)) :=
  ⟨waitForCompletion_elapsed_ge r m t hr hm, waitForCompletion_result r m t⟩

/-- C4 amended, witness: concrete never-completing task with status 500. -/
theorem idrac_c4_amended_witness :
    600 ≤ (waitForCompletion { status := 500, isProcessing := true } busyMonitor 600).2.1 ∧
    (waitForCompletion { status := 500, isProcessing := true } busyMonitor 600).2.2 =
      Except.error (Err.protocolError 500) := by
  have h := idrac_c4_amended { status := 500, isProcessing := true } busyMonitor 600 rfl
    (fun i => rfl)
  refine ⟨h.1, ?_⟩
  rw [h.2]
  simp [successStatuses]

/-- C7: the console-enable step PATCHes the capture attribute exactly when
the first read returned `"Disabled"`, raises exactly when the re-read value
is not `"Enabled"`, and when the attribute is already `"Enabled"` issues no
PATCH and succeeds. -/
theorem idrac_c7_enable_console (bmc : Bmc) (s : BmcState) :
    (Call.patchAttributes ∈ (enableSerialConsole bmc s).1 ↔ s.serialCapture = "Disabled") ∧
    ((enableSerialConsole bmc s).2.2 = Except.error Err.consoleEnableFailed ↔
      ¬ (enableSerialConsole bmc s).2.1.serialCapture = "Enabled") ∧
    (s.serialCapture = "Enabled" →
      (enableSerialConsole bmc s).1 = [Call.getAttributes, Call.getAttributes] ∧
      (enableSerialConsole bmc s).2.2 = Except.ok ()) := by
  by_cases hd : s.serialCapture = "Disabled"
  · simp only [enableSerialConsole, if_pos hd]
    refine ⟨by simp [hd], ?_, ?_⟩
    · by_cases he : (applyPatch bmc s).serialCapture = "Enabled"
      · simp [he]
      · simp [he]
    · intro he
      rw [he] at hd
      exact absurd hd (by decide)
  · simp only [enableSerialConsole, if_neg hd]
    refine ⟨by simp [hd], ?_, ?_⟩
    · by_cases he : s.serialCapture = "Enabled"
      · simp [he]
      · simp [he]
    · intro he
      simp [he]

/-- C7 witness: on a BMC whose capture attribute is already `"Enabled"`, no
PATCH is issued and the step succeeds. -/
theorem idrac_c7_enable_console_witness :
    (Call.patchAttributes ∈ (enableSerialConsole bmcDeploy { powerIdx := 0, serialCapture := "Enabled" }).1 ↔
      ({ powerIdx := 0, serialCapture := "Enabled" } : BmcState).serialCapture = "Disabled") ∧
    ((enableSerialConsole bmcDeploy { powerIdx := 0, serialCapture := "Enabled" }).2.2 =
        Except.error Err.consoleEnableFailed ↔
      ¬ (enableSerialConsole bmcDeploy
          { powerIdx := 0, serialCapture := "Enabled" }).2.1.serialCapture = "Enabled") ∧
    (({ powerIdx := 0, serialCapture := "Enabled" } : BmcState).serialCapture = "Enabled" →
      (enableSerialConsole bmcDeploy { powerIdx := 0, serialCapture := "Enabled" }).1 =
        [Call.getAttributes, Call.getAttributes] ∧
      (enableSerialConsole bmcDeploy { powerIdx := 0, serialCapture := "Enabled" }).2.2 =
        Except.ok ()) :=
  idrac_c7_enable_console bmcDeploy { powerIdx := 0, serialCapture := "Enabled" }

/-- C8: the one-time-boot import posts `ShareParameters.Target = "ALL"` with
an import buffer that serializes an attribute document holding exactly two
attributes: the boot-once flag set to `Enabled` and the first-boot-device
attribute set to the requested device token. -/
theorem idrac_c8_boot_override_body (bmc : Bmc) (device : String) (s : BmcState) :
    ∃ p, (changeBootOrderOnce bmc device s).1 =
        Call.importSystemConfiguration "ALL"
          (serializeSystemConfiguration (bootConfigDocument device)) ::
          List.replicate p Call.taskPoll ∧
      (bootConfigDocument device).component.attributes =
        [ { name := "VirtualMedia.1#BootOnce", text := "Enabled" },
          { name := "ServerBoot.1#FirstBootDevice", text := device } ] := by
  obtain ⟨p, hp⟩ := import_spec bmc device s
  exact ⟨p, by rw [hp], rfl⟩

/-! Base64 decoding inverts encoding, byte for byte. -/

theorem decode_encode_b64_char : ∀ n, n < 64 → decodeB64Char (encodeB64Char n) = n := by
  decide

theorem encode_b64_char_ne_pad : ∀ n, n < 64 → encodeB64Char n ≠ '=' := by
  decide

theorem b64decode_encode :
    ∀ n (l : List Nat), l.length ≤ n → (∀ x ∈ l, x < 256) → b64decode (b64encode l) = l := by
  intro n
  induction n with
  | zero =>
    intro l hl _
    rcases l with _ | ⟨a, rest⟩
    · rfl
    · simp at hl
  | succ n ih =>
    intro l hl hb
    rcases l with _ | ⟨a, _ | ⟨b, _ | ⟨c, rest⟩⟩⟩
    · rfl
    · have ha : a < 256 := hb a (by simp)
      simp only [b64encode, b64decode, if_true]
      rw [decode_encode_b64_char (a / 4) (by omega),
        decode_encode_b64_char (a % 4 * 16) (by omega)]
      simp only [List.cons.injEq, and_true]
      omega
    · have ha : a < 256 := hb a (by simp)
      have hbb : b < 256 := hb b (by simp)
      simp only [b64encode, b64decode]
      rw [if_neg (encode_b64_char_ne_pad (b % 16 * 4) (by omega))]
      simp only [if_true]
      rw [decode_encode_b64_char (a / 4) (by omega),
        decode_encode_b64_char (a % 4 * 16 + b / 16) (by omega),
        decode_encode_b64_char (b % 16 * 4) (by omega)]
      simp only [List.cons.injEq, and_true]
      constructor <;> omega
    · have ha : a < 256 := hb a (by simp)
      have hbb : b < 256 := hb b (by simp)
      have hc : c < 256 := hb c (by simp)
      simp only [b64encode, b64decode]
      rw [if_neg (encode_b64_char_ne_pad (b % 16 * 4 + c / 64) (by omega)),
        if_neg (encode_b64_char_ne_pad (c % 64) (by omega))]
      rw [decode_encode_b64_char (a / 4) (by omega),
        decode_encode_b64_char (a % 4 * 16 + b / 16) (by omega),
        decode_encode_b64_char (b % 16 * 4 + c / 64) (by omega),
        decode_encode_b64_char (c % 64) (by omega)]
      rw [ih rest (by simp at hl; omega) (fun x hx => hb x (by simp [hx]))]
      simp only [List.cons.injEq, and_true]
      refine ⟨by omega, by omega, by omega⟩

/-- Decoding the base64 encoding of any byte string gives back the bytes. -/
theorem b64_roundtrip (l : List Nat) (hb : ∀ x ∈ l, x < 256) :
    b64decode (b64encode l) = l :=
  b64decode_encode l.length l (le_refl _) hb

/-! Membership helpers for sequenced traces. -/

theorem mem_andThen_left {α β : Type} (x : List Call × BmcState × Except Err α)
    (f : α → BmcState → List Call × BmcState × Except Err β) (c : Call) (hc : c ∈ x.1) :
    c ∈ (andThen x f).1 := by
  obtain ⟨t, s, r⟩ := x
  cases r with
  | ok a =>
    simp only [andThen]
    exact List.mem_append_left _ hc
  | error e => exact hc

theorem mem_andThen_ok {α β : Type} (x : List Call × BmcState × Except Err α) (a : α)
    (f : α → BmcState → List Call × BmcState × Except Err β) (c : Call)
    (hx : x.2.2 = Except.ok a) (hc : c ∈ (f a x.2.1).1) :
    c ∈ (andThen x f).1 := by
  obtain ⟨t, s, r⟩ := x
  cases r with
  | ok b' =>
    have hb' : b' = a := by simpa using hx
    subst hb'
    simp only [andThen]
    exact List.mem_append_right _ hc
  | error e => exact absurd hx (by simp)

/-- C9: whenever the screenshot export action returns the base64 encoding of
a byte string `b`, the bytes written to the screenshot output file are
exactly `b`. -/
theorem idrac_c9_screenshot_roundtrip (b : List Nat) (bmc : Bmc) (s : BmcState)
    (hbytes : ∀ x ∈ b, x < 256)
    (hfile : bmc.screenshotFile = String.mk (b64encode b))
    (hstatus : bmc.screenshotResponse.status ∈ successStatuses) :
    Call.writeFile b ∈ (getConsoleLog bmc true s).1 := by
  have hshotOk : (getServerScreenShot bmc s).2.2 = Except.ok bmc.screenshotFile := by
    simp only [getServerScreenShot,
      waitForCompletion_ok bmc.screenshotResponse bmc.screenshotMonitor 600 hstatus]
  have hdec : b64decode bmc.screenshotFile.toList = b := by
    rw [hfile]
    exact b64_roundtrip b hbytes
  unfold getConsoleLog
  refine mem_andThen_ok (loginOp s) () _ _ rfl ?_
  simp only [if_true]
  refine mem_andThen_left _ _ _ ?_
  unfold saveScreenshot
  refine mem_andThen_ok (getServerScreenShot bmc s) bmc.screenshotFile _ _ hshotOk ?_
  simp only [hdec]
  exact List.mem_singleton_self _

/-- C9 witness: a concrete byte string round-trips through the export-decode
path onto the written file. -/
theorem idrac_c9_witness :
    Call.writeFile [76, 73, 83, 65, 255, 0] ∈
      (getConsoleLog bmcScreenshot true { powerIdx := 0, serialCapture := "Enabled" }).1 :=
  idrac_c9_screenshot_roundtrip [76, 73, 83, 65, 255, 0] bmcScreenshot
    { powerIdx := 0, serialCapture := "Enabled" } (by decide) rfl (by decide)

/-- C2 counterexample: deploying with a missing ISO URL does raise the
configuration assertion, but only after the login and the eject-media POST —
an HTTP request reaches the BMC before the error, contrary to the claim. -/
theorem idrac_c2_counterexample :
    deploy bmcEjectRejected none { powerIdx := 0, serialCapture := "Enabled" } =
      ([Call.login, Call.ejectMedia], { powerIdx := 0, serialCapture := "Enabled" },
        Except.error Err.assertionError) ∧
    Call.ejectMedia ∈
      (deploy bmcEjectRejected none { powerIdx := 0, serialCapture := "Enabled" }).1 := by
  have h : deploy bmcEjectRejected none { powerIdx := 0, serialCapture := "Enabled" } =
      ([Call.login, Call.ejectMedia], { powerIdx := 0, serialCapture := "Enabled" },
        Except.error Err.assertionError) := rfl
  refine ⟨h, ?_⟩
  rw [h]
  decide

/-- C2 amended: a hibernate stop fails before any call at all, and a deploy
with a missing or empty ISO URL raises the configuration assertion after the
login and eject-media calls but before any further hardware action. -/
theorem idrac_c2_amended (bmc : Bmc) (s : BmcState) (isoHttpUrl : Option String)
    (h : isoHttpUrl = none ∨ isoHttpUrl = some "") :
    stop bmc StopState.hibernate s = ([], s, Except.error Err.notImplementedError) ∧
    ∃ p, deploy bmc isoHttpUrl s =
      (Call.login :: Call.ejectMedia :: List.replicate p Call.taskPoll, s,
        Except.error Err.assertionError) := by
  constructor
  · simp [stop]
  · obtain ⟨p, he⟩ := eject_spec bmc s
    refine ⟨p, ?_⟩
    rcases h with h | h <;> subst h <;>
      simp [deploy, andThen, loginOp, he, assertIsoUrl]

/-- C2 amended, witness: concrete run with a missing ISO URL. -/
theorem idrac_c2_amended_witness :
    stop bmcEjectRejected StopState.hibernate { powerIdx := 0, serialCapture := "Enabled" } =
      ([], { powerIdx := 0, serialCapture := "Enabled" },
        Except.error Err.notImplementedError) ∧
    ∃ p, deploy bmcEjectRejected none { powerIdx := 0, serialCapture := "Enabled" } =
      (Call.login :: Call.ejectMedia :: List.replicate p Call.taskPoll,
        { powerIdx := 0, serialCapture := "Enabled" }, Except.error Err.assertionError) :=
  idrac_c2_amended bmcEjectRejected { powerIdx := 0, serialCapture := "Enabled" } none
    (Or.inl rfl)

/-- C3, run at the failing inputs: `_stop` on a machine already Off and
`_start` on a machine already On both return from the early path having
called `login` once and `logout` never, leaking the session — the code
violates the exactly-one-logout pairing the claim states. -/
theorem idrac_c3_session_leak :
    (stop bmcEjectRejected StopState.shutdown { powerIdx := 0, serialCapture := "Enabled" } =
        ([Call.login, Call.getPowerState], { powerIdx := 1, serialCapture := "Enabled" },
          Except.ok ()) ∧
      (stop bmcEjectRejected StopState.shutdown
          { powerIdx := 0, serialCapture := "Enabled" }).1.count Call.login = 1 ∧
      (stop bmcEjectRejected StopState.shutdown
          { powerIdx := 0, serialCapture := "Enabled" }).1.count Call.logout = 0) ∧
    (start bmcAlwaysOn { powerIdx := 0, serialCapture := "Enabled" } =
        ([Call.login, Call.getPowerState], { powerIdx := 1, serialCapture := "Enabled" },
          Except.ok ()) ∧
      (start bmcAlwaysOn { powerIdx := 0, serialCapture := "Enabled" }).1.count Call.login = 1 ∧
      (start bmcAlwaysOn { powerIdx := 0, serialCapture := "Enabled" }).1.count
        Call.logout = 0) :=
  ⟨⟨rfl, by decide, by decide⟩, ⟨rfl, by decide, by decide⟩⟩

/-! Filter helpers for workflow-level traces. -/

theorem filter_replicate_pos (p : Call → Bool) (c : Call) (hp : p c = true) (n : Nat) :
    List.filter p (List.replicate n c) = List.replicate n c := by
  induction n with
  | zero => rfl
  | succ n ih => simp [List.replicate_succ, List.filter_cons, hp, ih]

theorem filter_replicate_neg (p : Call → Bool) (c : Call) (hp : p c = false) (n : Nat) :
    List.filter p (List.replicate n c) = [] := by
  induction n with
  | zero => rfl
  | succ n ih => simp [List.replicate_succ, List.filter_cons, hp, ih]

theorem workflowCalls_append (t1 t2 : List Call) :
    workflowCalls (t1 ++ t2) = workflowCalls t1 ++ workflowCalls t2 := by
  simp only [workflowCalls]
  exact List.filter_append t1 t2

theorem workflowCalls_taskPolls (n : Nat) :
    workflowCalls (List.replicate n Call.taskPoll) = [] :=
  filter_replicate_neg _ _ rfl n

theorem workflowCalls_powerPolls (n : Nat) :
    workflowCalls (List.replicate n Call.getPowerState) = List.replicate n Call.getPowerState :=
  filter_replicate_pos _ _ rfl n

/-- C1 counterexample: a successful deploy run on a scripted BMC in which the
machine is On at the check (so ForceOff is issued).  The wire order has the
media insertion immediately after the ForceOff, before the polling that
observes the machine Off, so the order the claim states — ForceOff, then
polling until Off, then insert — rejects this trace. -/
theorem idrac_c1_counterexample :
    (deploy bmcDeploy (some "http://images/boot.iso")
        { powerIdx := 0, serialCapture := "Enabled" }).2.2 = Except.ok () ∧
    deployStepCalls (deploy bmcDeploy (some "http://images/boot.iso")
        { powerIdx := 0, serialCapture := "Enabled" }).1 =
      [Call.ejectMedia,
       Call.importSystemConfiguration "ALL"
         (serializeSystemConfiguration (bootConfigDocument "VCD-DVD")),
       Call.getPowerState, Call.reset "ForceOff",
       Call.insertMedia "http://images/boot.iso", Call.getPowerState,
       Call.getAttributes, Call.getAttributes, Call.reset "On", Call.getPowerState] ∧
    claimedDeployOrder (deployStepCalls (deploy bmcDeploy (some "http://images/boot.iso")
        { powerIdx := 0, serialCapture := "Enabled" }).1) = false :=
  ⟨rfl, rfl, rfl⟩

theorem console_spec (bmc : Bmc) (s : BmcState) :
    enableSerialConsole bmc s =
      (Call.getAttributes ::
        ((if s.serialCapture = "Disabled" then [Call.patchAttributes] else []) ++
          [Call.getAttributes]),
       (if s.serialCapture = "Disabled" then applyPatch bmc s else s),
       if (if s.serialCapture = "Disabled" then applyPatch bmc s else s).serialCapture = "Enabled"
       then Except.ok () else Except.error Err.consoleEnableFailed) := rfl

theorem filter_workflow_ite (c : Prop) [Decidable c] (t1 t2 : List Call) :
    List.filter isWorkflowCall (if c then t1 else t2) =
      if c then List.filter isWorkflowCall t1 else List.filter isWorkflowCall t2 := by
  split <;> rfl

/-- C1 amended: in every successful deploy run the workflow-level calls
arrive in the order: login, eject, boot-override import, one power-state
check, a ForceOff reset (skipped when the check already read Off), insertion
of the virtual media, polling until the power state reads Off, the
console-enable reads (with a PATCH exactly when capture was disabled), an On
reset, polling until On, and logout.  The media insertion comes directly
after the ForceOff step, before the wait-for-Off polling. -/
theorem idrac_c1_amended_order (bmc : Bmc) (isoHttpUrl : Option String) (s : BmcState)
    (h : (deploy bmc isoHttpUrl s).2.2 = Except.ok ()) :
    ∃ (u : String) (skipOff patched : Bool) (kOff kOn : Nat),
      isoHttpUrl = some u ∧
      workflowCalls (deploy bmc isoHttpUrl s).1 =
        [Call.login, Call.ejectMedia,
         Call.importSystemConfiguration "ALL"
           (serializeSystemConfiguration (bootConfigDocument "VCD-DVD")),
         Call.getPowerState] ++
        (if skipOff then [] else [Call.reset "ForceOff"]) ++
        [Call.insertMedia u] ++
        List.replicate (kOff + 1) Call.getPowerState ++
        [Call.getAttributes] ++
        (if patched then [Call.patchAttributes] else []) ++
        [Call.getAttributes, Call.reset "On"] ++
        List.replicate (kOn + 1) Call.getPowerState ++
        [Call.logout] := by
  obtain ⟨pE, he⟩ := eject_spec bmc s
  rcases isoHttpUrl with _ | u
  · exfalso
    simp [deploy, andThen, loginOp, he, assertIsoUrl] at h
  by_cases hu : u = ""
  · exfalso
    simp [deploy, andThen, loginOp, he, assertIsoUrl, hu] at h
  have hass : assertIsoUrl (some u) s = ([], s, Except.ok u) := by
    simp [assertIsoUrl, hu]
  obtain ⟨pI, hi⟩ := import_spec bmc "VCD-DVD" s
  cases hrI : (waitForCompletion bmc.importResponse bmc.importMonitor 600).2.2 with
  | error eI =>
    exfalso
    simp [deploy, andThen, loginOp, he, hass, hi, hrI] at h
  | ok uI =>
  obtain ⟨pIns, hins⟩ := insert_spec bmc u { s with powerIdx := s.powerIdx + 1 }
  cases hrIns : (waitForCompletion bmc.insertResponse bmc.insertMonitor 600).2.2 with
  | error eIns =>
    exfalso
    by_cases hOff : bmc.powerStates s.powerIdx = "Off"
    · simp [deploy, andThen, loginOp, he, hass, hi, hrI, getPowerStateOp, hOff,
        hins, hrIns] at h
    · obtain ⟨pF, hf⟩ := reset_spec bmc "ForceOff" { s with powerIdx := s.powerIdx + 1 }
      cases hrF : (waitForCompletion (bmc.resetResponse "ForceOff")
          (bmc.resetMonitor "ForceOff") 600).2.2 with
      | error eF =>
        simp [deploy, andThen, loginOp, he, hass, hi, hrI, getPowerStateOp, hOff,
          hf, hrF] at h
      | ok uF =>
        simp [deploy, andThen, loginOp, he, hass, hi, hrI, getPowerStateOp, hOff,
          hf, hrF, hins, hrIns] at h
  | ok uIns =>
  rcases hW : waitForPowerState bmc "Off" bmc.pollBound
      { s with powerIdx := s.powerIdx + 1 } with ⟨tW, sW, rW⟩
  cases rW with
  | error eW =>
    exfalso
    by_cases hOff : bmc.powerStates s.powerIdx = "Off"
    · simp [deploy, andThen, loginOp, he, hass, hi, hrI, getPowerStateOp, hOff,
        hins, hrIns, hW] at h
    · obtain ⟨pF, hf⟩ := reset_spec bmc "ForceOff" { s with powerIdx := s.powerIdx + 1 }
      cases hrF : (waitForCompletion (bmc.resetResponse "ForceOff")
          (bmc.resetMonitor "ForceOff") 600).2.2 with
      | error eF =>
        simp [deploy, andThen, loginOp, he, hass, hi, hrI, getPowerStateOp, hOff,
          hf, hrF] at h
      | ok uF =>
        simp [deploy, andThen, loginOp, he, hass, hi, hrI, getPowerStateOp, hOff,
          hf, hrF, hins, hrIns, hW] at h
  | ok uW =>
  have hWok : (waitForPowerState bmc "Off" bmc.pollBound
      { s with powerIdx := s.powerIdx + 1 }).2.2 = Except.ok () := by rw [hW]
  obtain ⟨kOff, s2, hw⟩ := waitForPowerState_ok_spec bmc "Off" bmc.pollBound
    { s with powerIdx := s.powerIdx + 1 } hWok
  have hcon := console_spec bmc s2
  by_cases hEn :
      (if s2.serialCapture = "Disabled" then applyPatch bmc s2 else s2).serialCapture = "Enabled"
  case neg =>
    exfalso
    by_cases hOff : bmc.powerStates s.powerIdx = "Off"
    · simp [deploy, andThen, loginOp, he, hass, hi, hrI, getPowerStateOp, hOff,
        hins, hrIns, hw, hcon, hEn] at h
    · obtain ⟨pF, hf⟩ := reset_spec bmc "ForceOff" { s with powerIdx := s.powerIdx + 1 }
      cases hrF : (waitForCompletion (bmc.resetResponse "ForceOff")
          (bmc.resetMonitor "ForceOff") 600).2.2 with
      | error eF =>
        simp [deploy, andThen, loginOp, he, hass, hi, hrI, getPowerStateOp, hOff,
          hf, hrF] at h
      | ok uF =>
        simp [deploy, andThen, loginOp, he, hass, hi, hrI, getPowerStateOp, hOff,
          hf, hrF, hins, hrIns, hw, hcon, hEn] at h
  case pos =>
  obtain ⟨pOn, hOnEq⟩ := reset_spec bmc "On"
    (if s2.serialCapture = "Disabled" then applyPatch bmc s2 else s2)
  cases hrOn : (waitForCompletion (bmc.resetResponse "On") (bmc.resetMonitor "On") 600).2.2 with
  | error eOn =>
    exfalso
    by_cases hOff : bmc.powerStates s.powerIdx = "Off"
    · simp [deploy, andThen, loginOp, he, hass, hi, hrI, getPowerStateOp, hOff,
        hins, hrIns, hw, hcon, hEn, hOnEq, hrOn] at h
    · obtain ⟨pF, hf⟩ := reset_spec bmc "ForceOff" { s with powerIdx := s.powerIdx + 1 }
      cases hrF : (waitForCompletion (bmc.resetResponse "ForceOff")
          (bmc.resetMonitor "ForceOff") 600).2.2 with
      | error eF =>
        simp [deploy, andThen, loginOp, he, hass, hi, hrI, getPowerStateOp, hOff,
          hf, hrF] at h
      | ok uF =>
        simp [deploy, andThen, loginOp, he, hass, hi, hrI, getPowerStateOp, hOff,
          hf, hrF, hins, hrIns, hw, hcon, hEn, hOnEq, hrOn] at h
  | ok uOn =>
  rcases hW2 : waitForPowerState bmc "On" bmc.pollBound
      (if s2.serialCapture = "Disabled" then applyPatch bmc s2 else s2) with ⟨tW2, sW2, rW2⟩
  cases rW2 with
  | error eW2 =>
    exfalso
    by_cases hOff : bmc.powerStates s.powerIdx = "Off"
    · simp [deploy, andThen, loginOp, he, hass, hi, hrI, getPowerStateOp, hOff,
        hins, hrIns, hw, hcon, hEn, hOnEq, hrOn, hW2] at h
    · obtain ⟨pF, hf⟩ := reset_spec bmc "ForceOff" { s with powerIdx := s.powerIdx + 1 }
      cases hrF : (waitForCompletion (bmc.resetResponse "ForceOff")
          (bmc.resetMonitor "ForceOff") 600).2.2 with
      | error eF =>
        simp [deploy, andThen, loginOp, he, hass, hi, hrI, getPowerStateOp, hOff,
          hf, hrF] at h
      | ok uF =>
        simp [deploy, andThen, loginOp, he, hass, hi, hrI, getPowerStateOp, hOff,
          hf, hrF, hins, hrIns, hw, hcon, hEn, hOnEq, hrOn, hW2] at h
  | ok uW2 =>
  have hW2ok : (waitForPowerState bmc "On" bmc.pollBound
      (if s2.serialCapture = "Disabled" then applyPatch bmc s2 else s2)).2.2 =
      Except.ok () := by rw [hW2]
  obtain ⟨kOn, s4, hw2⟩ := waitForPowerState_ok_spec bmc "On" bmc.pollBound
    (if s2.serialCapture = "Disabled" then applyPatch bmc s2 else s2) hW2ok
  by_cases hOff : bmc.powerStates s.powerIdx = "Off"
  · refine ⟨u, true, decide (s2.serialCapture = "Disabled"), kOff, kOn, rfl, ?_⟩
    simp [deploy, andThen, loginOp, logoutOp, he, hass, hi, hrI, getPowerStateOp, hOff,
      hins, hrIns, hw, hcon, hEn, hOnEq, hrOn, hw2,
      workflowCalls, isWorkflowCall, List.filter_append, List.filter_cons,
      filter_workflow_ite,
      filter_replicate_neg isWorkflowCall Call.taskPoll rfl,
      filter_replicate_pos isWorkflowCall Call.getPowerState rfl,
      List.replicate_succ]
  · obtain ⟨pF, hf⟩ := reset_spec bmc "ForceOff" { s with powerIdx := s.powerIdx + 1 }
    cases hrF : (waitForCompletion (bmc.resetResponse "ForceOff")
        (bmc.resetMonitor "ForceOff") 600).2.2 with
    | error eF =>
      exfalso
      simp [deploy, andThen, loginOp, he, hass, hi, hrI, getPowerStateOp, hOff,
        hf, hrF] at h
    | ok uF =>
      refine ⟨u, false, decide (s2.serialCapture = "Disabled"), kOff, kOn, rfl, ?_⟩
      simp [deploy, andThen, loginOp, logoutOp, he, hass, hi, hrI, getPowerStateOp, hOff,
        hf, hrF, hins, hrIns, hw, hcon, hEn, hOnEq, hrOn, hw2,
        workflowCalls, isWorkflowCall, List.filter_append, List.filter_cons,
        filter_workflow_ite,
        filter_replicate_neg isWorkflowCall Call.taskPoll rfl,
        filter_replicate_pos isWorkflowCall Call.getPowerState rfl,
        List.replicate_succ]

/-- C1 amended, witness: the amended order holds of the concrete successful
run used as the counterexample oracle. -/
theorem idrac_c1_amended_order_witness :
    ∃ (u : String) (skipOff patched : Bool) (kOff kOn : Nat),
      (some "http://images/boot.iso" : Option String) = some u ∧
      workflowCalls (deploy bmcDeploy (some "http://images/boot.iso")
          { powerIdx := 0, serialCapture := "Enabled" }).1 =
        [Call.login, Call.ejectMedia,
         Call.importSystemConfiguration "ALL"
           (serializeSystemConfiguration (bootConfigDocument "VCD-DVD")),
         Call.getPowerState] ++
        (if skipOff then [] else [Call.reset "ForceOff"]) ++
        [Call.insertMedia u] ++
        List.replicate (kOff + 1) Call.getPowerState ++
        [Call.getAttributes] ++
        (if patched then [Call.patchAttributes] else []) ++
        [Call.getAttributes, Call.reset "On"] ++
        List.replicate (kOn + 1) Call.getPowerState ++
        [Call.logout] :=
  idrac_c1_amended_order bmcDeploy (some "http://images/boot.iso")
    { powerIdx := 0, serialCapture := "Enabled" } rfl

end LisaIdrac
